import Mathlib

/-!
# Verification of the GoHTTP static file server

A shallow embedding of the GoHTTP server sources:

* `ReadRequest` / `headerLoop` — from `src/pkg/tritonhttp/request.go`
  (the request parser; the `gohttp` package duplicate referenced by the
  connection handler is not present in the sources, and per the design
  document the two packages duplicate the same logic).
* `HandleGoodRequest`, `HandleOK`, `HandleNotFound`, `HandleBadRequest`,
  `HandleConnection` — from the `gohttp` server file (`part_003`).
* `WriteSortedHeaders` — from `src/pkg/gohttp/response.go`.
* path helpers (`pathClean`, `pathJoin`, `filepathExt`) — embeddings of the
  Go standard library functions `filepath.Clean`, `path.Join` /
  `filepath.Join` and `filepath.Ext` used by the server.

Go maps are modelled as association lists with last-write-wins update
(`hset`); Go `time.Time` values are modelled abstractly by their HTTP date
rendering; the filesystem is a function from paths to optional file infos.
-/

namespace GoHTTP

/-- Classification of the Go error values the connection handler inspects:
`io.EOF`, a `net.Error` with `Timeout() == true`, any other I/O error, and
the `fmt.Errorf` parse failures produced inside `ReadRequest`. -/
inductive GoErr where
  | eof
  | timeout
  | other
  | parse (msg : String)
deriving Repr, DecidableEq

/-- Modelled from the spec: `ReadLine` (not present in the sources) reads one
CRLF-terminated line from the buffered connection stream.  A stream is a list
of read outcomes: either a complete line (CRLF stripped), or a read failure
together with the bytes of the next line consumed before the failure
(possibly none). -/
inductive LineEvent where
  | line (s : String)
  | errAfter (sofar : String) (e : GoErr)
deriving Repr, DecidableEq

/-- Modelled from the spec: the result delivered by one `ReadLine` call on the
next stream event (the line text read so far and the error, if any). -/
def readLineEv : LineEvent → String × Option GoErr
  | .line s => (s, none)
  | .errAfter sofar e => (sofar, some e)

/-- The `Request` struct of `request.go`.  `header` is the `Header` map,
modelled as an association list in insertion order. -/
structure Request where
  method : String
  url : String
  proto : String
  header : List (String × String)
  host : String
  close : Bool
deriving Repr, DecidableEq

/-- Go map update `m[k] = v`: replace the value when the key is present,
append otherwise. -/
def hset (h : List (String × String)) (k v : String) : List (String × String) :=
  if h.any (fun p => p.1 == k) then
    h.map (fun p => if p.1 == k then (k, v) else p)
  else
    h ++ [(k, v)]

/-- Go map lookup `m[k]`. -/
def hget : List (String × String) → String → Option String
  | [], _ => none
  | (a, b) :: t, k => if a == k then some b else hget t k

/-- Go `strings.TrimLeft(s, " ")`. -/
def trimLeftSpaces (s : String) : String :=
  String.mk (s.data.dropWhile (fun c => c == ' '))

/-- Character-list worker for `splitChar`; `acc` holds the current piece in
reverse. -/
def splitCharAux (c : Char) (acc : List Char) : List Char → List (List Char)
  | [] => [acc.reverse]
  | x :: xs =>
    if x = c then acc.reverse :: splitCharAux c [] xs
    else splitCharAux c (x :: acc) xs

/-- Go `strings.Split(s, sep)` for a one-character separator: all pieces
between occurrences of `c`, never empty as a list. -/
def splitChar (c : Char) (s : String) : List String :=
  (splitCharAux c [] s.data).map String.mk

/-- Go `strings.Join(elems, sep)`. -/
def joinSep (sep : String) : List String → String
  | [] => ""
  | [x] => x
  | x :: y :: rest => x ++ sep ++ joinSep sep (y :: rest)

/-- Go `strings.HasPrefix(s, pre)`. -/
def goHasPrefix (s pre : String) : Bool :=
  pre.data.isPrefixOf s.data

/-- Go `strings.HasSuffix(s, suf)`. -/
def goHasSuffix (s suf : String) : Bool :=
  suf.data.isSuffixOf s.data

/-- Splits off everything before the first occurrence of `c`, when present. -/
def splitFirst (c : Char) : List Char → Option (List Char × List Char)
  | [] => none
  | x :: xs =>
    if x = c then some ([], xs)
    else
      match splitFirst c xs with
      | none => none
      | some (p, q) => some (x :: p, q)

/-- Go `strings.SplitN(s, sep, n)` for a one-character separator: at most `n`
pieces, the last keeping any remaining separators. -/
def splitNChar (c : Char) : Nat → List Char → List (List Char)
  | 0, _ => []
  | 1, s => [s]
  | n + 2, s =>
    match splitFirst c s with
    | none => [s]
    | some (p, q) => p :: splitNChar c (n + 1) q

/-- Go `strings.SplitN(line, " ", 3)` as used by `parseRequestLine`. -/
def splitN3 (s : String) : List String :=
  (splitNChar ' ' 3 s.data).map String.mk

/-- The `IsAlphanumeric` predicate defined inline in `ReadRequest`:
letters, digits, or a hyphen. -/
def IsAlphanumeric (r : Char) : Bool :=
  (('a' ≤ r && r ≤ 'z') || ('A' ≤ r && r ≤ 'Z')) ||
  (('0' ≤ r && r ≤ '9') || r == '-')

/-- Capitalizes the first character of a hyphen segment and lowercases the
rest. -/
def capSeg (s : String) : String :=
  match s.data with
  | [] => ""
  | c :: cs => String.mk (c.toUpper :: cs.map Char.toLower)

/-- Modelled from the spec: `CanonicalHeaderKey` (not present in the sources)
canonicalizes a header key to title-case-per-hyphen-segment form
(`host → Host`, `content-type → Content-Type`). -/
def CanonicalHeaderKey (k : String) : String :=
  joinSep "-" ((splitChar '-' k).map capSeg)

/-- The outcome of one `ReadRequest` call, mirroring its Go return triple
`(req *Request, bytesReceived bool, err error)`.  `err r b e` is a return
with error `e`, request pointer `r` (`none` for `nil`) and `bytesReceived`
flag `b`; `panic` marks the runtime panics reachable in the source
(indexing `spilted[1]` on a colon-free header line, and `req.URL[0]` on an
empty URL). -/
inductive ReadResult where
  | ok (req : Request)
  | err (req : Option Request) (bytes : Bool) (e : GoErr)
  | panic
deriving Repr, DecidableEq

/-- The header loop of `ReadRequest` (`request.go` lines 66—107).  Returns
the result together with the unconsumed remainder of the stream.  Note the
source checks `line == ""` before checking the read error. -/
def headerLoop : Request → List LineEvent → ReadResult × List LineEvent
  | req, [] => (.ok req, [])
  | req, ev :: rest =>
    let le := readLineEv ev
    if le.1 = "" then (.ok req, rest)
    else
      match le.2 with
      | some e => (.err (some req) true e, rest)
      | none =>
        let spilted := splitChar ':' le.1
        let key := spilted.headD ""
        if key.data.any IsAlphanumeric then
          match spilted with
          | _ :: v :: _ =>
            let value := trimLeftSpaces v
            let ckey := CanonicalHeaderKey key
            if ckey = "Host" then headerLoop { req with host := value } rest
            else if ckey = "Connection" then
              headerLoop { req with close := value == "close" } rest
            else headerLoop { req with header := hset req.header ckey value } rest
          | _ => (.panic, rest)
        else (.err none true (.parse "invalid header key"), rest)

/-- `ReadRequest` of `request.go`, returning its result and the unconsumed
remainder of the stream.  An exhausted stream stands for a blocking read that
ends in `io.EOF` with no bytes. -/
def ReadRequestR : List LineEvent → ReadResult × List LineEvent
  | [] => (.err none false .eof, [])
  | ev :: rest =>
    let le := readLineEv ev
    match le.2 with
    | some e => (.err none false e, rest)
    | none =>
      match splitN3 le.1 with
      | [m, u, p] =>
        if m ≠ "GET" then (.err none true (.parse "invalid method"), rest)
        else
          match u.data with
          | [] => (.panic, rest)
          | c :: _ =>
            if c ≠ '/' then (.err none true (.parse "invalid url"), rest)
            else if p ≠ "HTTP/1.1" then
              (.err none true (.parse "invalid protocol"), rest)
            else
              headerLoop
                { method := m, url := u, proto := p, header := [],
                  host := "", close := false } rest
      | _ => (.err none true (.parse "invalid request line"), rest)

/-- `ReadRequest` viewed as a single parse attempt (result only). -/
def ReadRequest (evs : List LineEvent) : ReadResult :=
  (ReadRequestR evs).1

/-! ## Path helpers (Go standard library, as used by the server) -/

/-- The element-processing loop of Go `filepath.Clean` (unix): empty and `.`
segments are dropped; `..` pops a previous segment, is dropped at the root of
a rooted path, and is kept otherwise.  `out` holds the emitted segments in
reverse. -/
def cleanLoop (rooted : Bool) : List String → List String → List String
  | out, [] => out.reverse
  | out, seg :: rest =>
    if seg = "" || seg = "." then cleanLoop rooted out rest
    else if seg = ".." then
      match out with
      | [] => if rooted then cleanLoop rooted [] rest
              else cleanLoop rooted [".."] rest
      | o :: os =>
        if o = ".." then cleanLoop rooted (".." :: o :: os) rest
        else cleanLoop rooted os rest
    else cleanLoop rooted (seg :: out) rest

/-- Go `filepath.Clean` / `path.Clean` for slash-separated paths: the
shortest lexically equivalent path; the result ends in a slash only if it is
the root. -/
def pathClean (p : String) : String :=
  if p = "" then "."
  else
    let rooted := goHasPrefix p "/"
    let segs := cleanLoop rooted [] (splitChar '/' p)
    let body := joinSep "/" segs
    if rooted then (if body = "" then "/" else "/" ++ body)
    else (if body = "" then "." else body)

/-- Go `path.Join` / `filepath.Join` of two elements: empty elements are
dropped, the rest are joined with a slash and cleaned. -/
def pathJoin (a b : String) : String :=
  if a = "" && b = "" then ""
  else if a = "" then pathClean b
  else if b = "" then pathClean a
  else pathClean (a ++ "/" ++ b)

/-- Scans the reversed character list of a path for `filepathExt`:
`acc` holds the characters already passed, in forward order. -/
def extAux : List Char → List Char → String
  | _, [] => ""
  | acc, c :: rest =>
    if c = '/' then ""
    else if c = '.' then String.mk ('.' :: acc)
    else extAux (c :: acc) rest

/-- Go `filepath.Ext`: the suffix beginning at the final dot in the final
slash-separated element, empty if there is no dot. -/
def filepathExt (p : String) : String :=
  extAux [] p.data.reverse

/-! ## Times, file infos and content types -/

/-- Modelled from the spec: times are abstract values carrying their fixed
HTTP date rendering (`FormatTime`, not present in the sources, renders a
time in the fixed `Mon, 02 Jan 2006 15:04:05 GMT` style format). -/
structure GoTime where
  httpDate : String
deriving Repr, DecidableEq

/-- Modelled from the spec: `FormatTime` renders a time in the fixed HTTP
date format. -/
def FormatTime (t : GoTime) : String :=
  t.httpDate

/-- The result of a successful `os.Stat`: directory flag, modification time
and size in bytes. -/
structure FileInfo where
  isDir : Bool
  modTime : GoTime
  size : Nat
deriving Repr, DecidableEq

/-- A filesystem: `os.Stat` returns `some` info for existing paths and an
error (`none`) otherwise. -/
def Fs : Type := String → Option FileInfo

/-- Modelled from the spec: `MIMETypeByExtension` (not present in the
sources) is a static table from file extension to media type, total, with a
generic octet-stream fallback for unknown extensions. -/
def MIMETypeByExtension (ext : String) : String :=
  if ext = ".html" then "text/html; charset=utf-8"
  else if ext = ".css" then "text/css; charset=utf-8"
  else if ext = ".png" then "image/png"
  else if ext = ".jpg" then "image/jpeg"
  else "application/octet-stream"

/-! ## Responses and the server handlers (`part_003`, package `gohttp`) -/

/-- The `Response` struct of `response.go` (the back-reference to the request
is dropped: no handler reads it). -/
structure Response where
  statusCode : Nat
  proto : String
  header : List (String × String)
  filePath : String
deriving Repr, DecidableEq

/-- The `responseProto` constant. -/
def responseProto : String := "HTTP/1.1"

/-- A freshly allocated `&Response{Header: make(map[string]string)}` as built
at the handler call sites (status and strings zero-valued). -/
def newResponse : Response :=
  { statusCode := 0, proto := "", header := [], filePath := "" }

/-- `HandleBadRequest` of `part_003`: sets `Date`, proto, status 400, empty
file path and `Connection: close` on `res`. -/
def HandleBadRequest (now : GoTime) (res : Response) : Response :=
  let res := { res with header := hset res.header "Date" (FormatTime now) }
  let res := { res with proto := responseProto, statusCode := 400, filePath := "" }
  { res with header := hset res.header "Connection" "close" }

/-- `HandleNotFound` of `part_003`: sets `Date`, proto, status 404, and
`Connection: close` when the request asked to close. -/
def HandleNotFound (now : GoTime) (req : Request) (res : Response) : Response :=
  let res := { res with header := hset res.header "Date" (FormatTime now) }
  let res := { res with proto := responseProto, statusCode := 404 }
  if req.close then { res with header := hset res.header "Connection" "close" }
  else res

/-- `HandleOK` of `part_003`: stats the file, fills in `Date`,
`Last-Modified`, `Content-Type`, `Content-Length` and (when requested)
`Connection: close`, and sets status 200.  When `os.Stat` fails the Go code
dereferences the nil file info (`stat.ModTime()`) and panics: modelled as
`none`. -/
def HandleOK (fs : Fs) (now : GoTime) (req : Request) (path : String)
    (res : Response) : Option Response :=
  match fs path with
  | none => none
  | some stat =>
    let res := { res with header := hset res.header "Date" (FormatTime now) }
    let res := { res with header := hset res.header "Last-Modified" (FormatTime stat.modTime) }
    let res := { res with header := hset res.header "Content-Type" (MIMETypeByExtension (filepathExt path)) }
    let res := { res with header := hset res.header "Content-Length" (toString stat.size) }
    let res :=
      if req.close then { res with header := hset res.header "Connection" "close" }
      else res
    some { res with proto := responseProto, statusCode := 200, filePath := path }

/-- `HandleGoodRequest` of `part_003`: cleans the request target, joins it
onto the doc root, stats it, applies the directory / `index.html` /
containment rules, and dispatches to `HandleOK` or `HandleNotFound`
(`none` models the panic inside `HandleOK`). -/
def HandleGoodRequest (docRoot : String) (fs : Fs) (now : GoTime)
    (req : Request) : Option Response :=
  let res : Response :=
    { statusCode := 200, proto := responseProto, header := [],
      filePath := pathJoin docRoot (pathClean req.url) }
  let url := pathClean req.url
  match fs res.filePath with
  | none => some (HandleNotFound now req { res with filePath := "" })
  | some fi =>
    let next : Option String :=
      if fi.isDir then
        if goHasSuffix url "/" then some (pathJoin res.filePath "index.html")
        else none
      else some res.filePath
    match next with
    | none => some (HandleNotFound now req { res with filePath := "" })
    | some fp =>
      if !(goHasPrefix fp docRoot) then
        some (HandleNotFound now req { res with filePath := "" })
      else
        HandleOK fs now req fp { res with filePath := fp }

/-! ## The connection state machine (`HandleConnection` of `part_003`) -/

/-- Observable connection actions: writing a response and closing the
connection (the duplicate close performed by the deferred `conn.Close` on
return is elided); `panicked` marks the goroutine panic propagated out of
`HandleGoodRequest`. -/
inductive ConnAct where
  | wrote (r : Response)
  | closed
  | panicked
deriving Repr, DecidableEq

/-- `HandleConnection` of `part_003`.  Per iteration: re-arm the read
deadline (which fails once the connection was closed by a previous
iteration, since the loop does not return after a `Connection: close`
request), read a request, and dispatch in source order: `io.EOF` closes
silently; a timeout with a nil request closes (after a 400 only if
`bytesReceived`, a combination `ReadRequest` never produces); any other
error is answered with a 400 and a close; a parsed request is served and the
connection closed when it asked to close.  `fuel` bounds the loop; any fuel
exceeding the stream length is enough. -/
def HandleConnection (docRoot : String) (fs : Fs) (now : GoTime) :
    Nat → Bool → List LineEvent → List ConnAct
  | 0, _, _ => []
  | fuel + 1, connClosed, evs =>
    if connClosed then [.closed]
    else
      match ReadRequestR evs with
      | (.panic, _) => [.panicked]
      | (.err r bytes e, _) =>
        match e with
        | .eof => [.closed]
        | .timeout =>
          match r with
          | none =>
            if bytes then [.wrote (HandleBadRequest now newResponse), .closed]
            else [.closed]
          | some _ => [.wrote (HandleBadRequest now newResponse), .closed]
        | _ => [.wrote (HandleBadRequest now newResponse), .closed]
      | (.ok req, rest) =>
        match HandleGoodRequest docRoot fs now req with
        | none => [.panicked]
        | some res =>
          if req.close then
            .wrote res :: .closed :: HandleConnection docRoot fs now fuel true rest
          else
            .wrote res :: HandleConnection docRoot fs now fuel false rest

/-! ## The response serializer (`src/pkg/gohttp/response.go`) -/

/-- `WriteSortedHeaders` of `src/pkg/gohttp/response.go`: collect the header
keys, sort them with `sort.Strings`, and emit `Key: Value\r\n` for each key
found in the map, followed by the terminating blank line. -/
def WriteSortedHeaders (res : Response) : String :=
  let sortedKeys := List.insertionSort (fun a b : String => a ≤ b) (res.header.map Prod.fst)
  (sortedKeys.foldl (fun acc k =>
    match hget res.header k with
    | none => acc
    | some v => acc ++ k ++ ": " ++ v ++ "\r\n") "") ++ "\r\n"

/-- Concatenation of a list of strings, in order. -/
def strConcat : List String → String
  | [] => ""
  | s :: rest => s ++ strConcat rest

/-- The wire line `WriteSortedHeaders` emits for one key: `Key: Value\r\n`
when the key is in the map, nothing otherwise. -/
def headerLine (h : List (String × String)) (k : String) : String :=
  match hget h k with
  | none => ""
  | some v => k ++ ": " ++ v ++ "\r\n"

/-! ## Concrete demonstration fixtures -/

/-- A concrete document tree: the doc root `/www` holding a directory
`subdir` with an `index.html`, and a plain file `a.html` of 5 bytes. -/
def demoFs : Fs := fun p =>
  if p = "/www" then some ⟨true, ⟨"Mon, 01 Jan 2024 00:00:00 GMT"⟩, 0⟩
  else if p = "/www/subdir" then some ⟨true, ⟨"Mon, 01 Jan 2024 00:00:01 GMT"⟩, 0⟩
  else if p = "/www/subdir/index.html" then
    some ⟨false, ⟨"Mon, 01 Jan 2024 00:00:02 GMT"⟩, 7⟩
  else if p = "/www/a.html" then
    some ⟨false, ⟨"Mon, 01 Jan 2024 00:00:03 GMT"⟩, 5⟩
  else none

/-- A fixed current time for the demonstrations. -/
def tDemo : GoTime := ⟨"Tue, 01 Oct 2024 12:00:00 GMT"⟩

/-- A parsed `GET /subdir/` request. -/
def reqIndex : Request :=
  { method := "GET", url := "/subdir/", proto := "HTTP/1.1", header := [],
    host := "h", close := false }

/-- A parsed `GET /a.html` request. -/
def reqFile : Request :=
  { method := "GET", url := "/a.html", proto := "HTTP/1.1", header := [],
    host := "h", close := false }

/-- The response the server produces for `reqFile` over `demoFs`. -/
def res200demo : Response :=
  { statusCode := 200, proto := "HTTP/1.1",
    header :=
      [("Date", "Tue, 01 Oct 2024 12:00:00 GMT"),
       ("Last-Modified", "Mon, 01 Jan 2024 00:00:03 GMT"),
       ("Content-Type", "text/html; charset=utf-8"),
       ("Content-Length", "5")],
    filePath := "/www/a.html" }

/-- Two responses with the same header set listed in different orders. -/
def resHdrA : Response :=
  { statusCode := 200, proto := "HTTP/1.1",
    header := [("Date", "d"), ("Content-Length", "5")], filePath := "" }

/-- See `resHdrA`: the same headers, permuted. -/
def resHdrB : Response :=
  { statusCode := 200, proto := "HTTP/1.1",
    header := [("Content-Length", "5"), ("Date", "d")], filePath := "" }

/-! ## Association-list and handler lemmas -/

theorem hget_eq_none_iff (h : List (String × String)) (k : String) :
    hget h k = none ↔ k ∉ h.map Prod.fst := by
  induction h with
  | nil => simp [hget]
  | cons p t ih =>
    obtain ⟨a, b⟩ := p
    by_cases hk : a = k
    · simp [hget, hk]
    · have hka : ¬(k = a) := fun hh => hk hh.symm
      simp [hget, hk, ih, hka]

theorem mem_of_hget_eq_some {h : List (String × String)} {k v : String}
    (hh : hget h k = some v) : (k, v) ∈ h := by
  induction h with
  | nil => simp [hget] at hh
  | cons p t ih =>
    obtain ⟨a, b⟩ := p
    by_cases hk : a = k
    · subst hk
      obtain rfl : b = v := by simpa [hget] using hh
      exact List.mem_cons_self _ _
    · exact List.mem_cons_of_mem _ (ih (by simpa [hget, hk] using hh))

theorem hget_of_mem_nodup {h : List (String × String)} {k v : String}
    (hn : (h.map Prod.fst).Nodup) (hm : (k, v) ∈ h) : hget h k = some v := by
  induction h with
  | nil => simp at hm
  | cons p t ih =>
    obtain ⟨a, b⟩ := p
    have hn' := List.nodup_cons.mp (show ((a, b).1 :: t.map Prod.fst).Nodup from hn)
    rcases List.mem_cons.mp hm with hm | hm
    · injection hm with h1 h2
      subst h1
      subst h2
      simp [hget]
    · have hk : a ≠ k := by
        intro hk
        subst hk
        have hmm : a ∈ t.map Prod.fst := by
          simpa using List.mem_map_of_mem Prod.fst hm
        exact hn'.1 hmm
      simpa [hget, hk] using ih hn'.2 hm

theorem exists_hget_of_mem_keys {h : List (String × String)} {k : String}
    (hk : k ∈ h.map Prod.fst) : ∃ v, hget h k = some v := by
  cases hv : hget h k with
  | none => exact absurd ((hget_eq_none_iff h k).mp hv) (by simpa using hk)
  | some v => exact ⟨v, rfl⟩

theorem hget_perm_congr {h₁ h₂ : List (String × String)}
    (hp : h₁.Perm h₂) (hn : (h₁.map Prod.fst).Nodup) (k : String) :
    hget h₁ k = hget h₂ k := by
  have hn₂ : (h₂.map Prod.fst).Nodup := ((hp.map Prod.fst).nodup_iff).mp hn
  cases hv : hget h₁ k with
  | some v =>
    exact (hget_of_mem_nodup hn₂ (hp.mem_iff.mp (mem_of_hget_eq_some hv))).symm
  | none =>
    cases hv₂ : hget h₂ k with
    | none => rfl
    | some v =>
      have : (k, v) ∈ h₁ := hp.mem_iff.mpr (mem_of_hget_eq_some hv₂)
      have := hget_of_mem_nodup hn this
      rw [this] at hv
      exact Option.noConfusion hv

theorem foldl_headerLine (h : List (String × String)) (ks : List String)
    (acc : String) :
    ks.foldl (fun acc k =>
        match hget h k with
        | none => acc
        | some v => acc ++ k ++ ": " ++ v ++ "\r\n") acc =
      acc ++ strConcat (ks.map (headerLine h)) := by
  induction ks generalizing acc with
  | nil => simp [strConcat, String.append_empty]
  | cons k t ih =>
    simp only [List.foldl_cons, List.map_cons, strConcat, ih]
    cases hk : hget h k with
    | none => simp [headerLine, hk, String.empty_append]
    | some v => simp [headerLine, hk, String.append_assoc]

theorem WriteSortedHeaders_eq (res : Response) :
    WriteSortedHeaders res =
      strConcat
        ((List.insertionSort (fun a b : String => a ≤ b)
            (res.header.map Prod.fst)).map (headerLine res.header)) ++
        "\r\n" := by
  simp only [WriteSortedHeaders]
  rw [foldl_headerLine, String.empty_append]

theorem statusCode_HandleNotFound (now : GoTime) (req : Request) (r : Response) :
    (HandleNotFound now req r).statusCode = 404 := by
  unfold HandleNotFound
  by_cases hc : req.close <;> simp [hc]

theorem statusCode_HandleOK {fs : Fs} {now : GoTime} {req : Request}
    {path : String} {r res : Response} (h : HandleOK fs now req path r = some res) :
    res.statusCode = 200 := by
  unfold HandleOK at h
  split at h
  · exact Option.noConfusion h
  · injection h with h
    subst h
    rfl

theorem statusCode_HandleGoodRequest {docRoot : String} {fs : Fs}
    {now : GoTime} {req : Request} {res : Response}
    (h : HandleGoodRequest docRoot fs now req = some res) :
    res.statusCode = 200 ∨ res.statusCode = 404 := by
  simp only [HandleGoodRequest] at h
  split at h
  · injection h with h
    subst h
    exact Or.inr (statusCode_HandleNotFound _ _ _)
  · split at h
    · injection h with h
      subst h
      exact Or.inr (statusCode_HandleNotFound _ _ _)
    · split at h
      · injection h with h
        subst h
        exact Or.inr (statusCode_HandleNotFound _ _ _)
      · exact Or.inl (statusCode_HandleOK h)

theorem handleBadRequest_props (now : GoTime) :
    (HandleBadRequest now newResponse).header =
        [("Date", FormatTime now), ("Connection", "close")] ∧
    hget (HandleBadRequest now newResponse).header "Date" =
        some (FormatTime now) ∧
    hget (HandleBadRequest now newResponse).header "Connection" = some "close" ∧
    (HandleBadRequest now newResponse).filePath = "" ∧
    hget (HandleBadRequest now newResponse).header "Content-Length" = none ∧
    hget (HandleBadRequest now newResponse).header "Content-Type" = none ∧
    hget (HandleBadRequest now newResponse).header "Last-Modified" = none :=
  ⟨rfl, rfl, rfl, rfl, rfl, rfl, rfl⟩

theorem handleGoodRequest_200_inv (docRoot : String) (fs : Fs) (now : GoTime)
    (req : Request) (res : Response)
    (h : HandleGoodRequest docRoot fs now req = some res)
    (h200 : res.statusCode = 200) :
    ∃ stat : FileInfo,
      fs res.filePath = some stat ∧
      goHasPrefix res.filePath docRoot = true ∧
      res.header =
        [("Date", FormatTime now), ("Last-Modified", FormatTime stat.modTime),
         ("Content-Type", MIMETypeByExtension (filepathExt res.filePath)),
         ("Content-Length", toString stat.size)] ++
        (if req.close then [("Connection", "close")] else []) := by
  simp only [HandleGoodRequest] at h
  split at h
  · injection h with h
    subst h
    rw [statusCode_HandleNotFound] at h200
    exact absurd h200 (by decide)
  · split at h
    · injection h with h
      subst h
      rw [statusCode_HandleNotFound] at h200
      exact absurd h200 (by decide)
    · rename_i fp _
      split at h
      · injection h with h
        subst h
        rw [statusCode_HandleNotFound] at h200
        exact absurd h200 (by decide)
      · rename_i hpre
        simp only [HandleOK] at h
        split at h
        · exact Option.noConfusion h
        · rename_i stat hstat
          injection h with h
          subst h
          refine ⟨stat, hstat, by simpa using hpre, ?_⟩
          by_cases hc : req.close <;> simp [hc, hset]

/-! ## Claim theorems -/

/-- C3: every 200 response of `HandleGoodRequest` carries a resolved file
path that passes the containment check against the document root — the
textual-prefix test the source uses (`strings.HasPrefix(res.FilePath,
s.DocRoot)`), applied after the target was cleaned and joined onto the doc
root, so no request is ever answered 200 with a file outside the root. -/
theorem HandleGoodRequest_200_within_docRoot (docRoot : String) (fs : Fs)
    (now : GoTime) (req : Request) (res : Response)
    (h : HandleGoodRequest docRoot fs now req = some res)
    (h200 : res.statusCode = 200) :
    goHasPrefix res.filePath docRoot = true := by
  obtain ⟨stat, _, hpre, _⟩ := handleGoodRequest_200_inv docRoot fs now req res h h200
  exact hpre

/-- Witness for C3: the 200 answer to `GET /a.html` over the demo tree
resolves inside `/www`. -/
theorem HandleGoodRequest_200_within_docRoot_witness :
    goHasPrefix res200demo.filePath "/www" = true :=
  HandleGoodRequest_200_within_docRoot "/www" demoFs tDemo reqFile res200demo
    (by rfl) (by rfl)

/-- C8: every 200 response of `HandleGoodRequest` carries exactly the
headers `Date`, `Last-Modified` (the resolved file's modification time),
`Content-Type` (from the file extension), `Content-Length` (the decimal
file size), plus `Connection: close` exactly when the request's close flag
is set. -/
theorem HandleGoodRequest_200_exact_headers (docRoot : String) (fs : Fs)
    (now : GoTime) (req : Request) (res : Response)
    (h : HandleGoodRequest docRoot fs now req = some res)
    (h200 : res.statusCode = 200) :
    ∃ stat : FileInfo,
      fs res.filePath = some stat ∧
      res.header =
        [("Date", FormatTime now), ("Last-Modified", FormatTime stat.modTime),
         ("Content-Type", MIMETypeByExtension (filepathExt res.filePath)),
         ("Content-Length", toString stat.size)] ++
        (if req.close then [("Connection", "close")] else []) := by
  obtain ⟨stat, hstat, _, hdr⟩ := handleGoodRequest_200_inv docRoot fs now req res h h200
  exact ⟨stat, hstat, hdr⟩

/-- Witness for C8: the 200 answer to `GET /a.html` over the demo tree
carries exactly the four mandated headers (no `Connection`, as the request
did not ask to close). -/
theorem HandleGoodRequest_200_exact_headers_witness :
    ∃ stat : FileInfo,
      demoFs res200demo.filePath = some stat ∧
      res200demo.header =
        [("Date", FormatTime tDemo), ("Last-Modified", FormatTime stat.modTime),
         ("Content-Type", MIMETypeByExtension (filepathExt res200demo.filePath)),
         ("Content-Length", toString stat.size)] ++
        (if reqFile.close then [("Connection", "close")] else []) :=
  HandleGoodRequest_200_exact_headers "/www" demoFs tDemo reqFile res200demo
    (by rfl) (by rfl)

/-- C6: `WriteSortedHeaders` emits one `Key: Value\r\n` line per header
entry, with the keys in lexicographically sorted order, followed by the
terminating blank line — and its output depends only on the key/value set
(order of the underlying map is irrelevant), so serializing the same
`Response` value always yields byte-identical output. -/
theorem WriteSortedHeaders_sorted_and_deterministic (r₁ r₂ : Response)
    (hnd : (r₁.header.map Prod.fst).Nodup)
    (hp : r₁.header.Perm r₂.header) :
    (∃ ks : List String,
      List.Sorted (fun a b : String => a ≤ b) ks ∧
      ks.Perm (r₁.header.map Prod.fst) ∧
      WriteSortedHeaders r₁ = strConcat (ks.map (headerLine r₁.header)) ++ "\r\n" ∧
      ∀ k ∈ ks, ∃ v, hget r₁.header k = some v ∧
        headerLine r₁.header k = k ++ ": " ++ v ++ "\r\n") ∧
    WriteSortedHeaders r₁ = WriteSortedHeaders r₂ := by
  constructor
  · refine ⟨List.insertionSort (fun a b : String => a ≤ b) (r₁.header.map Prod.fst),
      List.sorted_insertionSort _ _, List.perm_insertionSort _ _,
      WriteSortedHeaders_eq r₁, ?_⟩
    intro k hk
    have hkeys : k ∈ r₁.header.map Prod.fst :=
      (List.perm_insertionSort _ _).mem_iff.mp hk
    obtain ⟨v, hv⟩ := exists_hget_of_mem_keys hkeys
    exact ⟨v, hv, by simp [headerLine, hv, String.append_assoc]⟩
  · rw [WriteSortedHeaders_eq r₁, WriteSortedHeaders_eq r₂]
    have hkeys : (r₁.header.map Prod.fst).Perm (r₂.header.map Prod.fst) :=
      hp.map Prod.fst
    have hsorteq :
        List.insertionSort (fun a b : String => a ≤ b) (r₁.header.map Prod.fst) =
          List.insertionSort (fun a b : String => a ≤ b) (r₂.header.map Prod.fst) :=
      List.eq_of_perm_of_sorted
        ((List.perm_insertionSort _ _).trans
          (hkeys.trans (List.perm_insertionSort _ _).symm))
        (List.sorted_insertionSort _ _) (List.sorted_insertionSort _ _)
    have hline : headerLine r₁.header = headerLine r₂.header := by
      funext k
      unfold headerLine
      rw [hget_perm_congr hp hnd k]
    rw [hsorteq, hline]

/-- Witness for C6: two responses whose header lists hold the same two
entries in opposite orders serialize identically, sorted. -/
theorem WriteSortedHeaders_sorted_and_deterministic_witness :
    (∃ ks : List String,
      List.Sorted (fun a b : String => a ≤ b) ks ∧
      ks.Perm (resHdrA.header.map Prod.fst) ∧
      WriteSortedHeaders resHdrA = strConcat (ks.map (headerLine resHdrA.header)) ++ "\r\n" ∧
      ∀ k ∈ ks, ∃ v, hget resHdrA.header k = some v ∧
        headerLine resHdrA.header k = k ++ ": " ++ v ++ "\r\n") ∧
    WriteSortedHeaders resHdrA = WriteSortedHeaders resHdrB :=
  WriteSortedHeaders_sorted_and_deterministic resHdrA resHdrB
    (by decide) (by decide)

/-- C4: the claim says a request head with no `Host` header is rejected with
a ParseFailure ("missing Host").  The source performs no such check: a full
head `GET / HTTP/1.1` followed by the terminating blank line and no `Host`
header parses successfully, with the `Host` field left at its zero value. -/
theorem ReadRequest_accepts_missing_host :
    ReadRequest [.line "GET / HTTP/1.1", .line ""] =
      .ok { method := "GET", url := "/", proto := "HTTP/1.1", header := [],
            host := "", close := false } := by
  rfl

/-- C5: the claim says a header key containing any character other than a
letter, digit or hyphen is rejected.  The source's check
`strings.IndexFunc(key, IsAlphanumeric) != -1` accepts a key as soon as it
contains at least one such character, so the key `X@y` — whose `@` fails the
source's own `IsAlphanumeric` predicate — is silently accepted into the
header map. -/
theorem ReadRequest_accepts_invalid_header_key_char :
    ReadRequest [.line "GET / HTTP/1.1", .line "X@y: v", .line ""] =
      .ok { method := "GET", url := "/", proto := "HTTP/1.1",
            header := [("X@y", "v")], host := "", close := false } ∧
    IsAlphanumeric '@' = false := by
  exact ⟨rfl, rfl⟩

/-- C9: the claim says `bytesReceived` is true whenever at least one byte of
the request line was read, even on error.  When the request-line read itself
fails after the 8 bytes `GET / HT`, the source returns
`(nil, false, err)` — the flag is false despite the received bytes. -/
theorem ReadRequest_partial_request_line_reports_no_bytes :
    ReadRequest [.errAfter "GET / HT" .timeout] = .err none false .timeout ∧
    "GET / HT" ≠ "" := by
  exact ⟨rfl, by decide⟩

/-- C10: in the header loop the `line == ""` check precedes the error check,
so a read that fails having produced an empty partial line is treated as the
header-terminating blank line: the error is discarded and `ReadRequest`
returns a successful request. -/
theorem ReadRequest_header_error_with_empty_line_succeeds :
    (∀ (req : Request) (e : GoErr) (rest : List LineEvent),
        headerLoop req (.errAfter "" e :: rest) = (.ok req, rest)) ∧
    (∀ e : GoErr,
        ReadRequest [.line "GET /a HTTP/1.1", .line "Host: h", .errAfter "" e] =
          .ok { method := "GET", url := "/a", proto := "HTTP/1.1",
                header := [], host := "h", close := false }) := by
  exact ⟨fun req e rest => rfl, fun e => rfl⟩

/-- C1: the claim says a timeout after partial bytes of a new request yields
exactly one 400 before closing, and a timeout with no bytes a silent close.
When the timeout interrupts the request line itself (here after the 8 bytes
`GET / HT`), `ReadRequest` reports `bytesReceived = false`, so the
connection is closed silently with zero response bytes, exactly as in the
no-bytes case. -/
theorem HandleConnection_timeout_partial_request_line_closes_silently :
    HandleConnection "/www" demoFs tDemo 2 false [.errAfter "GET / HT" .timeout] =
      [.closed] ∧
    HandleConnection "/www" demoFs tDemo 2 false [.errAfter "" .timeout] =
      [.closed] ∧
    "GET / HT" ≠ "" := by
  exact ⟨rfl, rfl, by decide⟩

/-- C7: every response with status 400 that `HandleConnection` ever writes
is the `HandleBadRequest` response built over a fresh header map — whether
or not any request was parsed — and so carries a `Date` header and an
unconditional `Connection: close`, an empty body path, and none of the
body-only headers `Content-Length`, `Content-Type`, `Last-Modified`. -/
theorem HandleConnection_400_has_date_and_connection_close
    (docRoot : String) (fs : Fs) (now : GoTime) (fuel : Nat) (c : Bool)
    (evs : List LineEvent) (r : Response)
    (hmem : ConnAct.wrote r ∈ HandleConnection docRoot fs now fuel c evs)
    (h400 : r.statusCode = 400) :
    r = HandleBadRequest now newResponse ∧
    r.header = [("Date", FormatTime now), ("Connection", "close")] ∧
    hget r.header "Date" = some (FormatTime now) ∧
    hget r.header "Connection" = some "close" ∧
    r.filePath = "" ∧
    hget r.header "Content-Length" = none ∧
    hget r.header "Content-Type" = none ∧
    hget r.header "Last-Modified" = none := by
  induction fuel generalizing c evs with
  | zero => simp [HandleConnection] at hmem
  | succ n ih =>
    simp only [HandleConnection] at hmem
    by_cases hc : c = true
    · rw [if_pos hc] at hmem
      simp at hmem
    · rw [if_neg hc] at hmem
      rcases hrr : ReadRequestR evs with ⟨rr, rest⟩
      rw [hrr] at hmem
      cases rr with
      | panic => simp at hmem
      | err r' bytes e =>
        cases e with
        | eof => simp at hmem
        | timeout =>
          cases r' with
          | none =>
            cases bytes with
            | false => simp at hmem
            | true =>
              obtain rfl : r = HandleBadRequest now newResponse := by
                simpa using hmem
              exact ⟨rfl, handleBadRequest_props now⟩
          | some q =>
            obtain rfl : r = HandleBadRequest now newResponse := by
              simpa using hmem
            exact ⟨rfl, handleBadRequest_props now⟩
        | other =>
          obtain rfl : r = HandleBadRequest now newResponse := by
            simpa using hmem
          exact ⟨rfl, handleBadRequest_props now⟩
        | parse msg =>
          obtain rfl : r = HandleBadRequest now newResponse := by
            simpa using hmem
          exact ⟨rfl, handleBadRequest_props now⟩
      | ok req =>
        dsimp only at hmem
        rcases hres : HandleGoodRequest docRoot fs now req with _ | res
        · rw [hres] at hmem
          simp at hmem
        · rw [hres] at hmem
          cases hcl : req.close with
          | true =>
            rw [hcl] at hmem
            simp only [if_true] at hmem
            rcases (by simpa using hmem :
                r = res ∨ ConnAct.wrote r ∈ HandleConnection docRoot fs now n true rest)
              with hr | hmem2
            · subst hr
              rcases statusCode_HandleGoodRequest hres with h2 | h2 <;>
                (rw [h400] at h2; exact absurd h2 (by decide))
            · exact ih _ _ hmem2
          | false =>
            rw [hcl] at hmem
            simp only [Bool.false_eq_true, if_false] at hmem
            rcases (by simpa using hmem :
                r = res ∨ ConnAct.wrote r ∈ HandleConnection docRoot fs now n false rest)
              with hr | hmem2
            · subst hr
              rcases statusCode_HandleGoodRequest hres with h2 | h2 <;>
                (rw [h400] at h2; exact absurd h2 (by decide))
            · exact ih _ _ hmem2

/-- Witness for C7: the 400 written for a malformed request line `BAD` on a
demo connection satisfies the claim's header obligations. -/
theorem HandleConnection_400_has_date_and_connection_close_witness :
    HandleBadRequest tDemo newResponse = HandleBadRequest tDemo newResponse ∧
    (HandleBadRequest tDemo newResponse).header =
      [("Date", FormatTime tDemo), ("Connection", "close")] ∧
    hget (HandleBadRequest tDemo newResponse).header "Date" =
      some (FormatTime tDemo) ∧
    hget (HandleBadRequest tDemo newResponse).header "Connection" = some "close" ∧
    (HandleBadRequest tDemo newResponse).filePath = "" ∧
    hget (HandleBadRequest tDemo newResponse).header "Content-Length" = none ∧
    hget (HandleBadRequest tDemo newResponse).header "Content-Type" = none ∧
    hget (HandleBadRequest tDemo newResponse).header "Last-Modified" = none :=
  HandleConnection_400_has_date_and_connection_close "/www" demoFs tDemo 1 false
    [.line "BAD"] (HandleBadRequest tDemo newResponse) (by decide) (by rfl)

/-- C2: the claim says `GET /subdir/` over an existing directory with an
`index.html` returns 200 with that file.  The source tests the trailing
slash on `filepath.Clean(req.URL)`, which has already stripped it
(`/subdir/` cleans to `/subdir`), so the `index.html` branch is unreachable
for any non-root directory and the server answers 404 even though
`/www/subdir/index.html` exists. -/
theorem HandleGoodRequest_trailing_slash_directory_404 :
    HandleGoodRequest "/www" demoFs tDemo reqIndex =
      some { statusCode := 404, proto := "HTTP/1.1",
             header := [("Date", "Tue, 01 Oct 2024 12:00:00 GMT")],
             filePath := "" } ∧
    goHasSuffix reqIndex.url "/" = true ∧
    goHasSuffix (pathClean reqIndex.url) "/" = false ∧
    demoFs "/www/subdir/index.html" ≠ none := by
  refine ⟨rfl, rfl, rfl, by decide⟩

end GoHTTP
